import Mathlib

/-!
# Verification of the monthly-candles retrieval pipeline

A shallow embedding of `src/monthly_candles/core.py`.  Polars DataFrames are
modelled as a list of column names together with rows of (column, value)
association lists; `Float64` cells are modelled as rationals (the pipeline only
moves them, it never computes with them); `Datetime(ms)` cells are epoch
milliseconds as integers.  Calendar months are represented by their month
index `12 * year + (month - 1)` in the proleptic Gregorian calendar, the
representation underlying Python's `datetime` / `dateutil.relativedelta`
arithmetic used by the source.  The on-disk cache directory is modelled as
`Option` (absent / present) of a keyed association list of stored frames, and
the network together with the download / unzip / csv-parse stages
(`_download_zip_file`, `_extract_csv_from_zip`, `_csv_to_dataframe`) is
abstracted as a function from (symbol, timeframe, month) to the parsed rows,
whose column list is fixed to `_COLUMNS` by `_csv_to_dataframe`'s `select`.
-/

namespace MonthlyCandles

/-- A cell value of a polars DataFrame: `Int64`/`Datetime(ms)` values,
`Float64` values (modelled as rationals — they are only ever moved, never
computed with), strings, and `null`. -/
inductive Val where
  | int : Int → Val
  | float : Rat → Val
  | str : String → Val
  | null : Val
deriving DecidableEq

/-- A DataFrame row: an association list from column names to cell values. -/
abbrev Rowv := List (String × Val)

/-- A polars DataFrame: its ordered column names and its rows. -/
structure Frame where
  columns : List String
  rows : List Rowv
deriving DecidableEq

/-- `_COLUMNS`: the six OHLCV column names kept by the record parser. -/
def COLUMNS : List String := ["timestamp", "open", "high", "low", "close", "volume"]

/-- The five OHLCV value columns (all of `_COLUMNS` except the timestamp). -/
def OHLCV : List String := ["open", "high", "low", "close", "volume"]

/-- Output column order of `_add_symbol_column`: `["symbol"] + _COLUMNS`. -/
def SYMCOLS : List String := "symbol" :: COLUMNS

/-- Gregorian leap-year test, as used by Python's `datetime`. -/
def isLeap (y : Nat) : Bool := y % 4 == 0 && (y % 100 != 0 || y % 400 == 0)

/-- Number of days of month `m` (1-based) in year `y`. -/
def daysInMonth (y m : Nat) : Nat :=
  if m = 2 then (if isLeap y then 29 else 28)
  else if m = 4 ∨ m = 6 ∨ m = 9 ∨ m = 11 then 30
  else 31

/-- The index of calendar month `YYYY-MM`: `12 * year + (month - 1)`.
`relativedelta(months=1)` is `(· + 1)` on this representation and the
`datetime` comparison of first-of-month dates is `≤` on it. -/
def mkMonth (y m : Nat) : Nat := 12 * y + (m - 1)

/-- The year of a month index. -/
def yearOf (n : Nat) : Nat := n / 12

/-- The (1-based) month-of-year of a month index. -/
def monthOf (n : Nat) : Nat := n % 12 + 1

/-- Number of days in the month with index `n`. -/
def monthLenDays (n : Nat) : Nat := daysInMonth (yearOf n) (monthOf n)

/-- Days from 0000-01-01 to `y`-01-01 (proleptic Gregorian): 365 days per
year plus one per leap year in `[0, y)`. -/
def daysBeforeYear (y : Nat) : Nat :=
  365 * y + (y + 3) / 4 + (y + 399) / 400 - (y + 99) / 100

/-- Days from `y`-01-01 to `y`-`m`-01. -/
def daysBeforeMonth (y m : Nat) : Nat :=
  ((List.range (m - 1)).map (fun i => daysInMonth y (i + 1))).sum

/-- Days from 0000-01-01 to the first day of the month with index `n`
(proleptic Gregorian). -/
def monthStartDay (n : Nat) : Nat :=
  daysBeforeYear (yearOf n) + daysBeforeMonth (yearOf n) (monthOf n)

/-- Milliseconds per day. -/
def msPerDay : Nat := 86400000

/-- The month index of 1970-01, the Unix epoch month. -/
def epochMonth : Nat := mkMonth 1970 1

/-- Epoch milliseconds of the first instant of the month with index `n`:
the value of `datetime.strptime(month, "%Y-%m")` as a polars
`Datetime("ms")`. -/
def monthStartMs (n : Nat) : Int :=
  ((monthStartDay n : Int) - (monthStartDay epochMonth : Int)) * (msPerDay : Int)

/-- `pl.datetime_range(start, end, interval, time_unit="ms", closed="left")`
for a fixed-duration interval of `delta` milliseconds: all instants
`s + k * delta < e`, ascending. -/
def datetimeRangeMs (s e : Int) (delta : Nat) : List Int :=
  (List.range (((e - s).toNat + delta - 1) / delta)).map
    (fun k : Nat => s + (delta : Int) * (k : Int))

/-- A timeframe string together with the fixed duration in milliseconds that
polars assigns to it as an interval (e.g. `⟨"1h", 3600000⟩`).  Calendar-aware
interval units (`mo`, `q`, `y`) are outside this model. -/
structure Timeframe where
  name : String
  ms : Nat
deriving DecidableEq

/-- `df.select(cols)`: project (and reorder) to the given columns.  In every
use below the requested columns exist in the frame. -/
def Frame.select (f : Frame) (cols : List String) : Frame :=
  ⟨cols, f.rows.map (fun r => cols.map (fun c => (c, (List.lookup c r).getD Val.null)))⟩

/-- `df.with_columns(pl.lit(v).alias(name))`: overwrite the column if present,
otherwise append it with the constant value. -/
def Frame.withColumnLit (f : Frame) (name : String) (v : Val) : Frame :=
  if f.columns.contains name then
    ⟨f.columns, f.rows.map (fun r => r.map (fun p => if p.1 = name then (p.1, v) else p))⟩
  else
    ⟨f.columns ++ [name], f.rows.map (fun r => r ++ [(name, v)])⟩

/-- `left.join(right, on=key, how="left")`: for each left row in order, emit
one output row per matching right row, or a single null-padded row when no
right row matches; output columns are the left columns followed by the right
columns other than the key. -/
def Frame.joinLeft (left right : Frame) (key : String) : Frame :=
  let rcols := right.columns.filter (fun c => c != key)
  ⟨left.columns ++ rcols,
    left.rows.flatMap (fun lr =>
      let hits := right.rows.filter (fun rr => List.lookup key rr == List.lookup key lr)
      if hits.isEmpty then [lr ++ rcols.map (fun c => (c, Val.null))]
      else hits.map (fun rr => lr ++ rcols.map (fun c => (c, (List.lookup c rr).getD Val.null))))⟩

/-- `_add_missing_timestamps(df, timeframe, month)`: generate every timestamp
of the month at `timeframe` spacing (half-open interval from the first instant
of the month to the first instant of the next month) and left-join the parsed
frame onto that sequence on the timestamp column. -/
def addMissingTimestamps (df : Frame) (timeframe : Timeframe) (month : Nat) : Frame :=
  let s := monthStartMs month
  let e := monthStartMs (month + 1)
  let timestamps : Frame :=
    ⟨["timestamp"], (datetimeRangeMs s e timeframe.ms).map (fun t => [("timestamp", Val.int t)])⟩
  timestamps.joinLeft df "timestamp"

/-- `_add_symbol_column(df, symbol)`: add a constant `symbol` column and
reorder to `["symbol"] + _COLUMNS`. -/
def addSymbolColumn (df : Frame) (symbol : String) : Frame :=
  (df.withColumnLit "symbol" (Val.str symbol)).select SYMCOLS

/-- The durable cache namespace (`.monthly_candles` directory): `none` when
the directory does not exist, otherwise the keyed entries stored in it. -/
abbrev CacheState := Option (List (String × Frame))

/-- Zero-pad a natural number to two digits (strftime `%m`). -/
def pad2 (n : Nat) : String := if n < 10 then "0" ++ toString n else toString n

/-- Zero-pad a natural number to four digits (strftime `%Y`). -/
def pad4 (n : Nat) : String :=
  if n < 10 then "000" ++ toString n
  else if n < 100 then "00" ++ toString n
  else if n < 1000 then "0" ++ toString n
  else toString n

/-- `strftime("%Y-%m")` of the first day of the month with index `n`. -/
def monthStr (n : Nat) : String := pad4 (yearOf n) ++ "-" ++ pad2 (monthOf n)

/-- The file name produced by `_get_cache_path` (relative to the cache
directory): `f"{symbol}-{timeframe}-{month}.parquet"`. -/
def cachePath (symbol : String) (tfName : String) (month : Nat) : String :=
  symbol ++ "-" ++ tfName ++ "-" ++ monthStr month ++ ".parquet"

/-- The cache entry stored at `path`, if any (`os.path.exists` +
`pl.read_parquet`). -/
def entryAt (st : CacheState) (path : String) : Option Frame :=
  List.lookup path (st.getD [])

/-- `os.makedirs(_CACHE_DIR, exist_ok=True)`, performed by `_get_cache_path`:
creates the namespace when absent, keeps existing entries. -/
def ensureCacheDir (st : CacheState) : CacheState := some (st.getD [])

/-- `_load_from_cache`: read the parquet file at `path` (only called when the
entry exists). -/
def loadFromCache (path : String) (st : CacheState) : Frame :=
  (entryAt st path).getD ⟨[], []⟩

/-- `_save_to_cache`: durably write the frame at `path`, replacing any file
already there. -/
def saveToCache (path : String) (f : Frame) (st : CacheState) : CacheState :=
  some ((path, f) :: (st.getD []).filter (fun e => e.1 != path))

/-- The network / decompress / parse front of the pipeline
(`_download_zip_file` → `_extract_csv_from_zip` → `_csv_to_dataframe`),
abstracted as the parsed rows it yields for a (symbol, timeframe, month). -/
abbrev CsvSource := String → String → Nat → List Rowv

/-- `_fetch_data_from_source`: parse the remote csv (columns fixed to
`_COLUMNS` by `_csv_to_dataframe`), expand to the full month calendar, then
add the symbol column. -/
def fetchDataFromSource (csv : CsvSource) (symbol : String) (tf : Timeframe)
    (month : Nat) : Frame :=
  let df : Frame := ⟨COLUMNS, csv symbol tf.name month⟩
  let df2 := addMissingTimestamps df tf month
  addSymbolColumn df2 symbol

/-- `_fetch_monthly_candles`: consult the cache when enabled, otherwise fetch
from the source and (when caching) store the result.  `_get_cache_path` always
runs first and creates the cache directory. -/
def fetchMonthlyCandles (csv : CsvSource) (symbol : String) (tf : Timeframe)
    (month : Nat) (useCache : Bool) (st : CacheState) : Frame × CacheState :=
  let path := cachePath symbol tf.name month
  let st1 := ensureCacheDir st
  if useCache && (entryAt st1 path).isSome then
    (loadFromCache path st1, st1)
  else
    let df := fetchDataFromSource csv symbol tf month
    if useCache then (df, saveToCache path df st1) else (df, st1)

/-- The `while current_date <= end_date` loop of `_get_months`, on month
indices. -/
def getMonthsFrom (cur endM : Nat) : List Nat :=
  if h : cur ≤ endM then cur :: getMonthsFrom (cur + 1) endM else []
termination_by endM + 1 - cur
decreasing_by omega

/-- `_get_months(start, end)`: the inclusive month sequence; a `None` end
defaults to the start month. -/
def getMonths (start : Nat) (stop : Option Nat) : List Nat :=
  getMonthsFrom start (stop.getD start)

/-- `pl.concat(candles, how="vertical")`: fails on an empty list, requires all
frames to share the first frame's columns, and stacks the rows in order. -/
def plConcat : List Frame → Except String Frame
  | [] => Except.error "cannot concat empty list"
  | f :: fs =>
    if fs.all (fun g => g.columns == f.columns) then
      Except.ok ⟨f.columns, (f :: fs).flatMap Frame.rows⟩
    else Except.error "vertical concat schema mismatch"

/-- The `symbols` argument of `fetch`: a single symbol string or a list. -/
inductive Symbols where
  | one : String → Symbols
  | many : List String → Symbols

/-- `if isinstance(symbols, str): symbols = [symbols]`. -/
def Symbols.toList : Symbols → List String
  | .one s => [s]
  | .many l => l

/-- The inner `for month in months` loop of `fetch`, threading the cache
state. -/
def runMonths (csv : CsvSource) (tf : Timeframe) (useCache : Bool) (symbol : String) :
    List Nat → CacheState → List Frame × CacheState
  | [], st => ([], st)
  | m :: ms, st =>
    let r := fetchMonthlyCandles csv symbol tf m useCache st
    let rest := runMonths csv tf useCache symbol ms r.2
    (r.1 :: rest.1, rest.2)

/-- The outer `for symbol in symbols` loop of `fetch`. -/
def runSymbols (csv : CsvSource) (tf : Timeframe) (useCache : Bool) (months : List Nat) :
    List String → CacheState → List Frame × CacheState
  | [], st => ([], st)
  | s :: ss, st =>
    let r := runMonths csv tf useCache s months st
    let rest := runSymbols csv tf useCache months ss r.2
    (r.1 ++ rest.1, rest.2)

/-- `fetch(symbols, timeframe, start, end, use_cache)`: iterate the symbol ×
month cross-product, fetching each month, and vertically concatenate. -/
def fetch (csv : CsvSource) (symbols : Symbols) (tf : Timeframe) (start : Nat)
    (stop : Option Nat) (useCache : Bool) (st : CacheState) :
    Except String Frame × CacheState :=
  let months := getMonths start stop
  let r := runSymbols csv tf useCache months symbols.toList st
  (plConcat r.1, r.2)

/-- `clear_cache()`: remove the cache directory and everything in it when it
exists, otherwise do nothing. -/
def clearCache (st : CacheState) : CacheState :=
  if st.isSome then none else st

/-- The timestamp cell of a row. -/
def rowTs (r : Rowv) : Option Val := List.lookup "timestamp" r

/-- The frame has the column list produced by `_add_symbol_column`. -/
def FrameCols (f : Frame) : Prop := f.columns = SYMCOLS

/-- Some single symbol value fills the whole `symbol` column of the frame. -/
def ConstSym (f : Frame) : Prop :=
  ∃ c, ∀ r ∈ f.rows, List.lookup "symbol" r = some (Val.str c)

/-- A normalized per-month frame: symbol-first column order and a constant
symbol column. -/
def FrameOk (f : Frame) : Prop := FrameCols f ∧ ConstSym f

/-- Every entry of the cache satisfies `P`. -/
def CacheOk (P : Frame → Prop) (st : CacheState) : Prop :=
  ∀ p f, entryAt st p = some f → P f

/-- Sequential map over a list threading a state, used to state the
per-key iteration order of `fetch`. -/
def mapAccum (f : α → σ → β × σ) : List α → σ → List β × σ
  | [], st => ([], st)
  | a :: l, st =>
    let r := f a st
    let rest := mapAccum f l r.2
    (r.1 :: rest.1, rest.2)

/-! ## List and association-list helper lemmas -/

theorem lookup_append (k : String) (l₁ l₂ : List (String × Val)) :
    List.lookup k (l₁ ++ l₂) = (List.lookup k l₁).or (List.lookup k l₂) := by
  induction l₁ with
  | nil => simp [List.lookup]
  | cons a l ih =>
    cases a with
    | mk c v =>
      by_cases h : k = c
      · simp [List.lookup, h]
      · simp [List.lookup, beq_false_of_ne h, ih]

theorem lookup_map_pairs (k : String) (l : List String) (g : String → Val) :
    List.lookup k (l.map (fun c => (c, g c))) = if k ∈ l then some (g k) else none := by
  induction l with
  | nil => simp [List.lookup]
  | cons c l ih =>
    by_cases h : k = c
    · simp [List.lookup, h]
    · simp [List.lookup, beq_false_of_ne h, ih, h]

theorem flatMap_singleton {α β : Type} (l : List α) (g : α → β) :
    l.flatMap (fun x => [g x]) = l.map g := by
  induction l with
  | nil => rfl
  | cons a l ih => simp [List.flatMap_cons, ih]

/-! ## Calendar arithmetic -/

theorem monthLenDays_pos (n : Nat) : 0 < monthLenDays n := by
  unfold monthLenDays daysInMonth
  split_ifs <;> omega

theorem daysBeforeMonth_step (y k : Nat) :
    daysBeforeMonth y (k + 1 + 1) = daysBeforeMonth y (k + 1) + daysInMonth y (k + 1) := by
  simp [daysBeforeMonth, List.range_succ]

theorem daysInYear_eq (y : Nat) :
    daysBeforeMonth y 12 + daysInMonth y 12 = if isLeap y then 366 else 365 := by
  cases h : isLeap y <;>
    simp [daysBeforeMonth, List.range_succ, daysInMonth, h]

theorem isLeap_iff (y : Nat) :
    isLeap y = true ↔ (y % 4 = 0 ∧ (y % 100 ≠ 0 ∨ y % 400 = 0)) := by
  simp [isLeap]

theorem daysBeforeYear_succ (y : Nat) :
    daysBeforeYear (y + 1) = daysBeforeYear y + (if isLeap y then 366 else 365) := by
  by_cases h : isLeap y = true
  · rw [if_pos h]
    have hm := (isLeap_iff y).mp h
    unfold daysBeforeYear
    omega
  · rw [if_neg h]
    have hm : ¬(y % 4 = 0 ∧ (y % 100 ≠ 0 ∨ y % 400 = 0)) :=
      fun hc => h ((isLeap_iff y).mpr hc)
    have hm' : y % 4 ≠ 0 ∨ (y % 100 = 0 ∧ y % 400 ≠ 0) := by
      by_cases h4 : y % 4 = 0
      · exact Or.inr (by omega)
      · exact Or.inl h4
    unfold daysBeforeYear
    rcases hm' with h4 | ⟨h100, h400⟩
    · omega
    · omega

theorem monthStartDay_succ (n : Nat) :
    monthStartDay (n + 1) = monthStartDay n + monthLenDays n := by
  by_cases h : n % 12 ≤ 10
  · have hy : (n + 1) / 12 = n / 12 := by omega
    have hm : (n + 1) % 12 = n % 12 + 1 := by omega
    unfold monthStartDay monthLenDays yearOf monthOf
    rw [hy, hm]
    have := daysBeforeMonth_step (n / 12) (n % 12)
    omega
  · have hr11 : n % 12 = 11 := by omega
    have hy : (n + 1) / 12 = n / 12 + 1 := by omega
    have hm : (n + 1) % 12 = 0 := by omega
    unfold monthStartDay monthLenDays yearOf monthOf
    rw [hy, hm, hr11]
    have h1 := daysBeforeYear_succ (n / 12)
    have h2 := daysInYear_eq (n / 12)
    have h3 : daysBeforeMonth (n / 12 + 1) (0 + 1) = 0 := by simp [daysBeforeMonth]
    have h4 : (11 + 1 : Nat) = 12 := rfl
    rw [h4]
    cases hL : isLeap (n / 12) <;> rw [hL] at h1 h2 <;> simp at h1 h2 <;> omega

theorem monthStartMs_succ (n : Nat) :
    monthStartMs (n + 1) = monthStartMs n + (monthLenDays n : Int) * (msPerDay : Int) := by
  unfold monthStartMs
  rw [monthStartDay_succ]
  push_cast
  ring

theorem monthStartMs_lt (n : Nat) : monthStartMs n < monthStartMs (n + 1) := by
  rw [monthStartMs_succ]
  have h1 := monthLenDays_pos n
  have h2 : (0 : Int) < (monthLenDays n : Int) * (msPerDay : Int) := by
    have hd : (0 : Int) < (msPerDay : Int) := by norm_num [msPerDay]
    have hl : (0 : Int) < (monthLenDays n : Int) := by exact_mod_cast h1
    exact mul_pos hl hd
  omega

/-! ## The generated timestamp sequence -/

theorem datetimeRangeMs_length (s e : Int) (d : Nat) :
    (datetimeRangeMs s e d).length = ((e - s).toNat + d - 1) / d := by
  unfold datetimeRangeMs
  rw [List.length_map, List.length_range]

theorem lt_rangeLen_iff (s e : Int) (d : Nat) (hd : 0 < d) (k : Nat) :
    k < ((e - s).toNat + d - 1) / d ↔ (d : Int) * k < e - s := by
  have h1 : k < ((e - s).toNat + d - 1) / d ↔ d * k < (e - s).toNat := by
    rw [Nat.lt_iff_add_one_le, Nat.le_div_iff_mul_le hd, add_one_mul, Nat.mul_comm k d]
    omega
  rw [h1]
  have h2 : d * k < (e - s).toNat ↔ ((d * k : Nat) : Int) < e - s := Int.lt_toNat
  rw [h2]
  push_cast
  rfl

theorem mem_datetimeRangeMs (s e : Int) (d : Nat) (hd : 0 < d) (t : Int) :
    t ∈ datetimeRangeMs s e d ↔ s ≤ t ∧ t < e ∧ (d : Int) ∣ (t - s) := by
  unfold datetimeRangeMs
  rw [List.mem_map]
  constructor
  · rintro ⟨k, hk, rfl⟩
    rw [List.mem_range] at hk
    have hd' : (0 : Int) < d := by exact_mod_cast hd
    have hk' := (lt_rangeLen_iff s e d hd k).mp hk
    refine ⟨?_, by omega, ⟨k, by ring⟩⟩
    have h0 : (0 : Int) ≤ (d : Int) * (k : Int) :=
      mul_nonneg (Int.natCast_nonneg d) (Int.natCast_nonneg k)
    omega
  · rintro ⟨h1, h2, c, hc⟩
    have hd' : (0 : Int) < d := by exact_mod_cast hd
    have hc0 : 0 ≤ c := by
      by_contra hneg
      have : (d : Int) * c < 0 := mul_neg_of_pos_of_neg hd' (by omega)
      omega
    refine ⟨c.toNat, ?_, ?_⟩
    · rw [List.mem_range, lt_rangeLen_iff s e d hd, Int.toNat_of_nonneg hc0]
      omega
    · rw [Int.toNat_of_nonneg hc0]
      omega

theorem pairwise_datetimeRangeMs (s e : Int) (d : Nat) (hd : 0 < d) :
    (datetimeRangeMs s e d).Pairwise (fun a b => a < b) := by
  unfold datetimeRangeMs
  refine List.Pairwise.map _ ?_ (List.pairwise_lt_range _)
  intro a b hab
  have hd' : (0 : Int) < d := by exact_mod_cast hd
  have hab' : (a : Int) < b := by exact_mod_cast hab
  have := mul_lt_mul_of_pos_left hab' hd'
  omega

theorem chain'_datetimeRangeMs (s e : Int) (d : Nat) :
    (datetimeRangeMs s e d).Chain' (fun a b => b = a + (d : Int)) := by
  unfold datetimeRangeMs
  rw [List.chain'_map]
  rw [List.chain'_iff_get]
  intro i h
  simp only [List.get_eq_getElem, List.getElem_range]
  push_cast
  ring

theorem nodup_datetimeRangeMs (s e : Int) (d : Nat) (hd : 0 < d) :
    (datetimeRangeMs s e d).Nodup :=
  (pairwise_datetimeRangeMs s e d hd).imp ne_of_lt

theorem card_instants (s e : Int) (d : Nat) (hd : 0 < d) :
    ((Finset.Ico s e).filter (fun t => (d : Int) ∣ (t - s))).card
      = (datetimeRangeMs s e d).length := by
  have hset : (Finset.Ico s e).filter (fun t => (d : Int) ∣ (t - s))
      = (datetimeRangeMs s e d).toFinset := by
    ext t
    rw [Finset.mem_filter, Finset.mem_Ico, List.mem_toFinset,
      mem_datetimeRangeMs s e d hd]
    tauto
  rw [hset, List.toFinset_card_of_nodup (nodup_datetimeRangeMs s e d hd)]

/-! ## Structure of the left join -/

theorem filter_rcols : COLUMNS.filter (fun c => c != "timestamp") = OHLCV := by decide

theorem filter_ts_pairwise (v : Option Val) (l : List Rowv)
    (h : l.Pairwise (fun a b => rowTs a ≠ rowTs b)) :
    l.filter (fun rr => rowTs rr == v) = (l.find? (fun rr => rowTs rr == v)).toList := by
  induction l with
  | nil => rfl
  | cons a l ih =>
    rw [List.pairwise_cons] at h
    rw [List.filter_cons, List.find?_cons]
    by_cases hv : rowTs a = v
    · have hb : (rowTs a == v) = true := beq_iff_eq.mpr hv
      rw [hb]
      have hrest : List.filter (fun rr => rowTs rr == v) l = [] := by
        rw [List.filter_eq_nil_iff]
        intro b hb2 hpb
        exact h.1 b hb2 (by rw [hv, ← beq_iff_eq.mp hpb])
      simp [hrest]
    · have hb : (rowTs a == v) = false := beq_eq_false_iff_ne.mpr hv
      rw [hb]
      simpa using ih h.2

theorem addMissingTimestamps_columns (df : Frame) (hcols : df.columns = COLUMNS)
    (tf : Timeframe) (n : Nat) :
    (addMissingTimestamps df tf n).columns = COLUMNS := by
  unfold addMissingTimestamps Frame.joinLeft
  rw [hcols, filter_rcols]
  rfl

theorem addMissingTimestamps_rows (df : Frame) (hcols : df.columns = COLUMNS)
    (tf : Timeframe) (n : Nat)
    (hdist : df.rows.Pairwise (fun a b => rowTs a ≠ rowTs b)) :
    (addMissingTimestamps df tf n).rows
      = (datetimeRangeMs (monthStartMs n) (monthStartMs (n + 1)) tf.ms).map
          (fun t =>
            match df.rows.find? (fun rr => rowTs rr == some (Val.int t)) with
            | some rr =>
                ("timestamp", Val.int t)
                  :: OHLCV.map (fun c => (c, (List.lookup c rr).getD Val.null))
            | none => ("timestamp", Val.int t) :: OHLCV.map (fun c => (c, Val.null))) := by
  unfold addMissingTimestamps Frame.joinLeft
  rw [hcols, filter_rcols]
  show (List.map _ _).flatMap _ = _
  generalize datetimeRangeMs (monthStartMs n) (monthStartMs (n + 1)) tf.ms = L
  induction L with
  | nil => rfl
  | cons t L ih =>
    rw [List.map_cons, List.map_cons, List.flatMap_cons, ih]
    have hlk : List.lookup "timestamp" [("timestamp", Val.int t)] = some (Val.int t) := rfl
    rw [hlk]
    have hfp := filter_ts_pairwise (some (Val.int t)) df.rows hdist
    simp only [rowTs] at hfp
    rw [hfp]
    simp only [rowTs]
    cases hfind : df.rows.find? (fun rr => List.lookup "timestamp" rr == some (Val.int t)) with
    | none => rfl
    | some rr => rfl

theorem addMissingTimestamps_empty_rows (tf : Timeframe) (n : Nat) :
    (addMissingTimestamps ⟨COLUMNS, []⟩ tf n).rows
      = (datetimeRangeMs (monthStartMs n) (monthStartMs (n + 1)) tf.ms).map
          (fun t => ("timestamp", Val.int t) :: OHLCV.map (fun c => (c, Val.null))) := by
  rw [addMissingTimestamps_rows ⟨COLUMNS, []⟩ rfl tf n (by constructor)]
  rfl

/-! ## Claim C1: calendar completeness -/

/-- C1: for every timeframe (of positive fixed duration) and month, calendar
expansion (`_add_missing_timestamps`) of an empty input table returns a table
whose timestamps are exactly the timeframe-spaced instants of the half-open
interval from the start of the month to the start of the next month, strictly
ascending with uniform spacing equal to the timeframe duration, with all OHLCV
fields null, and whose row count equals the number of such instants. -/
theorem claim1_calendar_completeness (tf : Timeframe) (n : Nat) (hms : 0 < tf.ms) :
    ∃ ints : List Int,
      (addMissingTimestamps ⟨COLUMNS, []⟩ tf n).rows
        = ints.map (fun t => ("timestamp", Val.int t) :: OHLCV.map (fun c => (c, Val.null)))
      ∧ (∀ t : Int, t ∈ ints ↔
          monthStartMs n ≤ t ∧ t < monthStartMs (n + 1)
            ∧ (tf.ms : Int) ∣ (t - monthStartMs n))
      ∧ List.Chain' (fun a b => b = a + (tf.ms : Int)) ints
      ∧ List.Pairwise (fun a b => a < b) ints
      ∧ (∀ r ∈ (addMissingTimestamps ⟨COLUMNS, []⟩ tf n).rows, ∀ c ∈ OHLCV,
          List.lookup c r = some Val.null)
      ∧ (addMissingTimestamps ⟨COLUMNS, []⟩ tf n).rows.length
          = ((Finset.Ico (monthStartMs n) (monthStartMs (n + 1))).filter
              (fun t => (tf.ms : Int) ∣ (t - monthStartMs n))).card := by
  refine ⟨datetimeRangeMs (monthStartMs n) (monthStartMs (n + 1)) tf.ms,
    addMissingTimestamps_empty_rows tf n,
    mem_datetimeRangeMs (monthStartMs n) (monthStartMs (n + 1)) tf.ms hms,
    chain'_datetimeRangeMs (monthStartMs n) (monthStartMs (n + 1)) tf.ms,
    pairwise_datetimeRangeMs (monthStartMs n) (monthStartMs (n + 1)) tf.ms hms, ?_, ?_⟩
  · intro r hr c hc
    rw [addMissingTimestamps_empty_rows] at hr
    obtain ⟨t, ht, rfl⟩ := List.mem_map.mp hr
    fin_cases hc <;> rfl
  · rw [addMissingTimestamps_empty_rows, List.length_map]
    exact (card_instants (monthStartMs n) (monthStartMs (n + 1)) tf.ms hms).symm

/-- Witness for C1 at timeframe "1h" and month 2023-02. -/
theorem claim1_witness :
    0 < (Timeframe.mk "1h" 3600000).ms ∧
    (∃ ints : List Int,
      (addMissingTimestamps ⟨COLUMNS, []⟩ (Timeframe.mk "1h" 3600000) (mkMonth 2023 2)).rows
        = ints.map (fun t => ("timestamp", Val.int t) :: OHLCV.map (fun c => (c, Val.null)))
      ∧ (∀ t : Int, t ∈ ints ↔
          monthStartMs (mkMonth 2023 2) ≤ t ∧ t < monthStartMs (mkMonth 2023 2 + 1)
            ∧ ((Timeframe.mk "1h" 3600000).ms : Int) ∣ (t - monthStartMs (mkMonth 2023 2)))
      ∧ List.Chain' (fun a b => b = a + ((Timeframe.mk "1h" 3600000).ms : Int)) ints
      ∧ List.Pairwise (fun a b => a < b) ints
      ∧ (∀ r ∈ (addMissingTimestamps ⟨COLUMNS, []⟩ (Timeframe.mk "1h" 3600000)
            (mkMonth 2023 2)).rows, ∀ c ∈ OHLCV,
          List.lookup c r = some Val.null)
      ∧ (addMissingTimestamps ⟨COLUMNS, []⟩ (Timeframe.mk "1h" 3600000)
            (mkMonth 2023 2)).rows.length
          = ((Finset.Ico (monthStartMs (mkMonth 2023 2)) (monthStartMs (mkMonth 2023 2 + 1))).filter
              (fun t => ((Timeframe.mk "1h" 3600000).ms : Int)
                ∣ (t - monthStartMs (mkMonth 2023 2)))).card) :=
  ⟨by decide, claim1_calendar_completeness (Timeframe.mk "1h" 3600000) (mkMonth 2023 2) (by decide)⟩

/-! ## Claim C2: join correctness -/

/-- C2 counterexample: a parsed table with the same in-calendar timestamp on
two rows (its timestamps form a subset of the expected calendar, here the
single instant 2023-01-01T00:00) makes the left join emit one output row per
duplicate, so the expanded row count (2) differs from the calendar row count
(1) and depends on the input's row count. -/
theorem claim2_counterexample :
    (∀ r ∈ (Frame.mk COLUMNS
        [[("timestamp", Val.int 1672531200000)], [("timestamp", Val.int 1672531200000)]]).rows,
      rowTs r = some (Val.int 1672531200000))
    ∧ (monthStartMs (mkMonth 2023 1) ≤ 1672531200000
        ∧ (1672531200000 : Int) < monthStartMs (mkMonth 2023 1 + 1)
        ∧ ((2678400000 : Nat) : Int) ∣ ((1672531200000 : Int) - monthStartMs (mkMonth 2023 1)))
    ∧ (addMissingTimestamps (Frame.mk COLUMNS
        [[("timestamp", Val.int 1672531200000)], [("timestamp", Val.int 1672531200000)]])
        (Timeframe.mk "744h" 2678400000) (mkMonth 2023 1)).rows.length = 2
    ∧ (addMissingTimestamps (Frame.mk COLUMNS [])
        (Timeframe.mk "744h" 2678400000) (mkMonth 2023 1)).rows.length = 1 := by
  refine ⟨by decide, by decide, by decide, by decide⟩

/-- C2 (amended with pairwise-distinct timestamps): for every parsed table `T`
with `_COLUMNS` columns and pairwise-distinct timestamps lying inside the
expected calendar, expansion preserves every OHLCV value of `T` at its
matching timestamp, leaves the OHLCV fields of all non-matching rows null, and
produces exactly as many rows as expansion of the empty table — independent of
`T`'s row count. -/
theorem claim2_join_correctness (T : Frame) (tf : Timeframe) (n : Nat)
    (hms : 0 < tf.ms) (hcols : T.columns = COLUMNS)
    (hdist : T.rows.Pairwise (fun a b => rowTs a ≠ rowTs b))
    (hsub : ∀ r ∈ T.rows, ∃ t : Int, rowTs r = some (Val.int t)
        ∧ monthStartMs n ≤ t ∧ t < monthStartMs (n + 1)
        ∧ (tf.ms : Int) ∣ (t - monthStartMs n)) :
    (addMissingTimestamps T tf n).rows.length
        = (addMissingTimestamps ⟨COLUMNS, []⟩ tf n).rows.length
    ∧ (∀ r ∈ T.rows, ∃ r2 ∈ (addMissingTimestamps T tf n).rows,
        rowTs r2 = rowTs r ∧ ∀ c ∈ OHLCV,
          List.lookup c r2 = some ((List.lookup c r).getD Val.null))
    ∧ (∀ r2 ∈ (addMissingTimestamps T tf n).rows,
        (∀ r ∈ T.rows, rowTs r ≠ rowTs r2) → ∀ c ∈ OHLCV,
          List.lookup c r2 = some Val.null) := by
  have hsym : Symmetric (fun a b : Rowv => rowTs a ≠ rowTs b) := fun a b h => h.symm
  rw [addMissingTimestamps_rows T hcols tf n hdist, addMissingTimestamps_empty_rows]
  refine ⟨by rw [List.length_map, List.length_map], ?_, ?_⟩
  · intro r hr
    obtain ⟨t, hts, h1, h2, h3⟩ := hsub r hr
    have htL : t ∈ datetimeRangeMs (monthStartMs n) (monthStartMs (n + 1)) tf.ms :=
      (mem_datetimeRangeMs (monthStartMs n) (monthStartMs (n + 1)) tf.ms hms t).mpr ⟨h1, h2, h3⟩
    have hpsome : (T.rows.find? (fun rr => rowTs rr == some (Val.int t))).isSome = true :=
      List.find?_isSome.mpr ⟨r, hr, by rw [hts]; exact beq_self_eq_true _⟩
    obtain ⟨rr', hfind⟩ := Option.isSome_iff_exists.mp hpsome
    have hrr'mem : rr' ∈ T.rows := List.mem_of_find?_eq_some hfind
    have hp2 := List.find?_some hfind
    have hrr'ts : rowTs rr' = some (Val.int t) := beq_iff_eq.mp hp2
    have hrr' : rr' = r := by
      by_contra hne
      exact List.Pairwise.forall hsym hdist hrr'mem hr hne (by rw [hrr'ts, hts])
    subst hrr'
    refine ⟨_, List.mem_map_of_mem _ htL, ?_⟩
    simp only [hfind]
    constructor
    · rw [hts]; rfl
    · intro c hc
      fin_cases hc <;> rfl
  · intro r2 hr2 hnone c hc
    obtain ⟨t, htL, rfl⟩ := List.mem_map.mp hr2
    cases hfind : T.rows.find? (fun rr => rowTs rr == some (Val.int t)) with
    | none =>
      simp only [hfind]
      fin_cases hc <;> rfl
    | some rr' =>
      exfalso
      have hrr'mem : rr' ∈ T.rows := List.mem_of_find?_eq_some hfind
      have hp2 := List.find?_some hfind
      have hrr'ts : rowTs rr' = some (Val.int t) := beq_iff_eq.mp hp2
      refine hnone rr' hrr'mem ?_
      simp only [hfind]
      rw [hrr'ts]
      rfl

/-- Witness for the amended C2 at a one-row parsed table for 2023-01. -/
theorem claim2_witness :
    0 < (Timeframe.mk "744h" 2678400000).ms
    ∧ (Frame.mk COLUMNS
        [[("timestamp", Val.int 1672531200000), ("open", Val.float 42)]]).columns = COLUMNS
    ∧ (Frame.mk COLUMNS
        [[("timestamp", Val.int 1672531200000), ("open", Val.float 42)]]).rows.Pairwise
          (fun a b => rowTs a ≠ rowTs b)
    ∧ ((addMissingTimestamps (Frame.mk COLUMNS
          [[("timestamp", Val.int 1672531200000), ("open", Val.float 42)]])
          (Timeframe.mk "744h" 2678400000) (mkMonth 2023 1)).rows.length
        = (addMissingTimestamps ⟨COLUMNS, []⟩
            (Timeframe.mk "744h" 2678400000) (mkMonth 2023 1)).rows.length
      ∧ (∀ r ∈ (Frame.mk COLUMNS
            [[("timestamp", Val.int 1672531200000), ("open", Val.float 42)]]).rows,
          ∃ r2 ∈ (addMissingTimestamps (Frame.mk COLUMNS
              [[("timestamp", Val.int 1672531200000), ("open", Val.float 42)]])
              (Timeframe.mk "744h" 2678400000) (mkMonth 2023 1)).rows,
            rowTs r2 = rowTs r ∧ ∀ c ∈ OHLCV,
              List.lookup c r2 = some ((List.lookup c r).getD Val.null))
      ∧ (∀ r2 ∈ (addMissingTimestamps (Frame.mk COLUMNS
            [[("timestamp", Val.int 1672531200000), ("open", Val.float 42)]])
            (Timeframe.mk "744h" 2678400000) (mkMonth 2023 1)).rows,
          (∀ r ∈ (Frame.mk COLUMNS
              [[("timestamp", Val.int 1672531200000), ("open", Val.float 42)]]).rows,
            rowTs r ≠ rowTs r2) → ∀ c ∈ OHLCV,
            List.lookup c r2 = some Val.null)) :=
  ⟨by decide, rfl, by decide,
    claim2_join_correctness
      (Frame.mk COLUMNS [[("timestamp", Val.int 1672531200000), ("open", Val.float 42)]])
      (Timeframe.mk "744h" 2678400000) (mkMonth 2023 1) (by decide) rfl (by decide)
      (by
        intro r hr
        rw [List.mem_singleton] at hr
        subst hr
        exact ⟨1672531200000, rfl, by decide, by decide, by decide⟩)⟩

/-! ## Claims C3, C5, C8, C10: cache behaviour -/

/-- C3: if a cache entry exists for the key and `use_cache` is true, the
monthly fetch returns the cached table, leaves the state unchanged, and its
result does not depend on the transport collaborator (it holds uniformly for
every `csv` source, so any two transports give the same result and state). -/
theorem claim3_cache_short_circuit (s : String) (tf : Timeframe) (m : Nat)
    (st : CacheState) (tbl : Frame)
    (h : entryAt st (cachePath s tf.name m) = some tbl) :
    ∀ csv : CsvSource, fetchMonthlyCandles csv s tf m true st = (tbl, st) := by
  intro csv
  cases st with
  | none => simp [entryAt] at h
  | some es =>
    unfold fetchMonthlyCandles
    simp only [ensureCacheDir, Option.getD_some]
    rw [h]
    simp [loadFromCache, h]

/-- Witness for C3: a cached empty table for BTCUSDT/1h/2023-01 is returned
unchanged for an arbitrary transport. -/
theorem claim3_witness :
    entryAt (some [(cachePath "BTCUSDT" "1h" (mkMonth 2023 1), Frame.mk SYMCOLS [])])
        (cachePath "BTCUSDT" "1h" (mkMonth 2023 1)) = some (Frame.mk SYMCOLS [])
    ∧ (∀ csv : CsvSource,
        fetchMonthlyCandles csv "BTCUSDT" (Timeframe.mk "1h" 3600000) (mkMonth 2023 1) true
          (some [(cachePath "BTCUSDT" "1h" (mkMonth 2023 1), Frame.mk SYMCOLS [])])
        = (Frame.mk SYMCOLS [],
            some [(cachePath "BTCUSDT" "1h" (mkMonth 2023 1), Frame.mk SYMCOLS [])])) :=
  ⟨by decide,
    claim3_cache_short_circuit "BTCUSDT" (Timeframe.mk "1h" 3600000) (mkMonth 2023 1)
      (some [(cachePath "BTCUSDT" "1h" (mkMonth 2023 1), Frame.mk SYMCOLS [])])
      (Frame.mk SYMCOLS []) (by decide)⟩

/-- C5 counterexample: with `use_cache = False` and no cache directory, the
monthly fetch still creates the cache namespace (`_get_cache_path` runs
`os.makedirs` unconditionally), so the durable cache namespace is not left
exactly as it was before the call. -/
theorem claim5_counterexample :
    (fetchMonthlyCandles (fun _ _ _ => []) "BTCUSDT" (Timeframe.mk "744h" 2678400000)
      (mkMonth 2023 1) false none).2 ≠ none := by decide

/-- C5 (amended): with `use_cache = False` the monthly fetch always computes
its result from the source — independently of the cache contents — and never
reads or writes any cache entry (all entries are left exactly as they were);
the cache namespace directory is however created when absent. -/
theorem claim5_no_cache_entry_effects (csv : CsvSource) (s : String) (tf : Timeframe)
    (m : Nat) (st : CacheState) :
    fetchMonthlyCandles csv s tf m false st
      = (fetchDataFromSource csv s tf m, some (st.getD []))
    ∧ (∀ p, entryAt (fetchMonthlyCandles csv s tf m false st).2 p = entryAt st p) :=
  ⟨rfl, fun _ => rfl⟩

/-- C8: storing a table under a key and loading that key returns the stored
table, for every prior cache state (so any prior entry for the key is
overwritten). -/
theorem claim8_cache_roundtrip (st : CacheState) (p : String) (f : Frame) :
    loadFromCache p (saveToCache p f st) = f
    ∧ entryAt (saveToCache p f st) p = some f := by
  have h : entryAt (saveToCache p f st) p = some f := by
    unfold entryAt saveToCache
    simp [List.lookup]
  exact ⟨by unfold loadFromCache; rw [h]; rfl, h⟩

/-- C10: clearing a non-existent cache namespace succeeds and is the identity,
`clear_cache` is idempotent, and after any call no entry remains for any
key. -/
theorem claim10_clear_cache (st : CacheState) (p : String) :
    clearCache none = none
    ∧ clearCache (clearCache st) = clearCache st
    ∧ entryAt (clearCache st) p = none := by
  refine ⟨rfl, ?_, ?_⟩
  · cases st <;> rfl
  · cases st <;> rfl

/-! ## The month sequence and claims C6, C7 -/

theorem getMonthsFrom_of_le (cur endM : Nat) (h : cur ≤ endM) :
    getMonthsFrom cur endM = cur :: getMonthsFrom (cur + 1) endM := by
  rw [getMonthsFrom]
  simp [h]

theorem getMonthsFrom_of_gt (cur endM : Nat) (h : endM < cur) :
    getMonthsFrom cur endM = [] := by
  rw [getMonthsFrom]
  simp
  omega

theorem getMonthsFrom_eq_range (endM : Nat) :
    ∀ k cur, endM + 1 - cur = k →
      getMonthsFrom cur endM = (List.range k).map (fun i => cur + i) := by
  intro k
  induction k with
  | zero =>
    intro cur hk
    rw [getMonthsFrom_of_gt cur endM (by omega)]
    rfl
  | succ k ih =>
    intro cur hk
    rw [getMonthsFrom_of_le cur endM (by omega), ih (cur + 1) (by omega),
      List.range_succ_eq_map, List.map_cons, List.map_map]
    congr 1
    refine List.map_congr_left fun i _ => ?_
    simp [Function.comp]
    omega

theorem mem_getMonthsFrom (cur endM m : Nat) :
    m ∈ getMonthsFrom cur endM ↔ cur ≤ m ∧ m ≤ endM := by
  rw [getMonthsFrom_eq_range endM (endM + 1 - cur) cur rfl]
  rw [List.mem_map]
  constructor
  · rintro ⟨i, hi, rfl⟩
    rw [List.mem_range] at hi
    omega
  · rintro ⟨h1, h2⟩
    exact ⟨m - cur, by rw [List.mem_range]; omega, by omega⟩

theorem pairwise_getMonthsFrom (cur endM : Nat) :
    (getMonthsFrom cur endM).Pairwise (fun a b => a < b) := by
  rw [getMonthsFrom_eq_range endM (endM + 1 - cur) cur rfl]
  refine List.Pairwise.map _ ?_ (List.pairwise_lt_range _)
  intro a b h
  omega

theorem runSymbols_months_nil (csv : CsvSource) (tf : Timeframe) (uc : Bool)
    (ss : List String) (st : CacheState) :
    runSymbols csv tf uc [] ss st = ([], st) := by
  induction ss with
  | nil => rfl
  | cons s ss ih => simp [runSymbols, runMonths, ih]

theorem fetch_inverted (csv : CsvSource) (symbols : Symbols) (tf : Timeframe)
    (start e : Nat) (uc : Bool) (st : CacheState) (h : e < start) :
    getMonths start (some e) = []
    ∧ fetch csv symbols tf start (some e) uc st
        = (Except.error "cannot concat empty list", st) := by
  have hm : getMonths start (some e) = [] := by
    show getMonthsFrom start ((some e).getD start) = []
    rw [Option.getD_some]
    exact getMonthsFrom_of_gt start e h
  refine ⟨hm, ?_⟩
  unfold fetch
  rw [hm]
  simp only [runSymbols_months_nil]
  rfl

/-- C6 counterexample: for the inverted range 2023-05 .. 2023-04 the loop runs
zero times, but the range fetch then raises (`pl.concat` of an empty list)
instead of returning an empty table. -/
theorem claim6_counterexample :
    (fetch (fun _ _ _ => []) (Symbols.one "BTCUSDT") (Timeframe.mk "1h" 3600000)
        (mkMonth 2023 5) (some (mkMonth 2023 4)) true none).1
      = Except.error "cannot concat empty list"
    ∧ (fetch (fun _ _ _ => []) (Symbols.one "BTCUSDT") (Timeframe.mk "1h" 3600000)
        (mkMonth 2023 5) (some (mkMonth 2023 4)) true none).1
      ≠ Except.ok (Frame.mk SYMCOLS []) := by
  have h := (fetch_inverted (fun _ _ _ => []) (Symbols.one "BTCUSDT")
    (Timeframe.mk "1h" 3600000) (mkMonth 2023 5) (mkMonth 2023 4) true none (by decide)).2
  rw [h]
  exact ⟨rfl, by simp⟩

/-- C6 (amended): when the end month precedes the start month the
month-sequence loop produces zero iterations, and the range fetch then fails
with the empty-concatenation error (leaving the cache state untouched) rather
than returning an empty table. -/
theorem claim6_inverted_range (csv : CsvSource) (symbols : Symbols) (tf : Timeframe)
    (start e : Nat) (uc : Bool) (st : CacheState) (h : e < start) :
    getMonths start (some e) = []
    ∧ fetch csv symbols tf start (some e) uc st
        = (Except.error "cannot concat empty list", st) :=
  fetch_inverted csv symbols tf start e uc st h

/-- Witness for the amended C6 on the inverted range 2023-05 .. 2023-04. -/
theorem claim6_witness :
    mkMonth 2023 4 < mkMonth 2023 5
    ∧ (getMonths (mkMonth 2023 5) (some (mkMonth 2023 4)) = []
      ∧ fetch (fun _ _ _ => []) (Symbols.one "BTCUSDT") (Timeframe.mk "1h" 3600000)
          (mkMonth 2023 5) (some (mkMonth 2023 4)) true none
        = (Except.error "cannot concat empty list", none)) :=
  ⟨by decide,
    claim6_inverted_range (fun _ _ _ => []) (Symbols.one "BTCUSDT")
      (Timeframe.mk "1h" 3600000) (mkMonth 2023 5) (mkMonth 2023 4) true none (by decide)⟩

/-- C7: a range fetch with an absent end month behaves exactly like one whose
end month equals the start month — same table and same cache effects — and the
month sequence is the single start month. -/
theorem claim7_single_month_shorthand (csv : CsvSource) (symbols : Symbols)
    (tf : Timeframe) (start : Nat) (uc : Bool) (st : CacheState) :
    fetch csv symbols tf start none uc st = fetch csv symbols tf start (some start) uc st
    ∧ getMonths start none = [start] := by
  constructor
  · rfl
  · show getMonthsFrom start (Option.getD none start) = [start]
    rw [Option.getD_none, getMonthsFrom_of_le start start (le_refl start),
      getMonthsFrom_of_gt (start + 1) start (by omega)]

/-! ## Shape of the per-month pipeline output -/

theorem addMissingTimestamps_rows_shape (df : Frame) (hcols : df.columns = COLUMNS)
    (tf : Timeframe) (n : Nat) :
    ∀ r ∈ (addMissingTimestamps df tf n).rows, ∃ (t : Int) (g : String → Val),
      r = ("timestamp", Val.int t) :: OHLCV.map (fun c => (c, g c)) := by
  unfold addMissingTimestamps Frame.joinLeft
  rw [hcols, filter_rcols]
  intro r hr
  simp only [List.mem_flatMap, List.mem_map] at hr
  obtain ⟨lr, ⟨t, ht, rfl⟩, hr⟩ := hr
  split at hr
  · rw [List.mem_singleton] at hr
    exact ⟨t, fun _ => Val.null, hr⟩
  · rw [List.mem_map] at hr
    obtain ⟨rr, hrr, rfl⟩ := hr
    exact ⟨t, fun c => (List.lookup c rr).getD Val.null, rfl⟩

theorem withColumnLit_not_contains (f : Frame) (name : String) (v : Val)
    (h : f.columns.contains name = false) :
    f.withColumnLit name v = ⟨f.columns ++ [name], f.rows.map (fun r => r ++ [(name, v)])⟩ := by
  unfold Frame.withColumnLit
  rw [if_neg (by rw [h]; exact Bool.false_ne_true)]

theorem addSymbolColumn_columns (df : Frame) (s : String) :
    (addSymbolColumn df s).columns = SYMCOLS := rfl

theorem addSymbolColumn_symbol (df : Frame) (s : String) (hcols : df.columns = COLUMNS)
    (hsh : ∀ r ∈ df.rows, List.lookup "symbol" r = none) :
    ∀ r ∈ (addSymbolColumn df s).rows, List.lookup "symbol" r = some (Val.str s) := by
  unfold addSymbolColumn
  rw [withColumnLit_not_contains df "symbol" (Val.str s) (by rw [hcols]; decide)]
  unfold Frame.select
  intro r hr
  simp only [List.mem_map] at hr
  obtain ⟨r0, hr0, rfl⟩ := hr
  obtain ⟨r1, hr1, rfl⟩ := hr0
  rw [lookup_map_pairs "symbol" SYMCOLS _]
  rw [if_pos (by decide)]
  rw [lookup_append, hsh r1 hr1]
  rfl

theorem fetchDataFromSource_cols (csv : CsvSource) (s : String) (tf : Timeframe) (m : Nat) :
    FrameCols (fetchDataFromSource csv s tf m) := rfl

theorem fetchDataFromSource_ok (csv : CsvSource) (s : String) (tf : Timeframe) (m : Nat) :
    FrameOk (fetchDataFromSource csv s tf m) := by
  refine ⟨rfl, s, ?_⟩
  unfold fetchDataFromSource
  apply addSymbolColumn_symbol _ s (addMissingTimestamps_columns _ rfl tf m)
  intro r hr
  obtain ⟨t, g, rfl⟩ := addMissingTimestamps_rows_shape _ rfl tf m r hr
  have hmp := lookup_map_pairs "symbol" OHLCV g
  rw [if_neg (by decide)] at hmp
  have hb : ("symbol" == "timestamp") = false := by decide
  simp [List.lookup, hb, hmp]

/-! ## Cache invariants through the fetch loop -/

theorem lookup_filter_ne (q p : String) (l : List (String × Frame)) (h : q ≠ p) :
    List.lookup q (l.filter (fun e => e.1 != p)) = List.lookup q l := by
  induction l with
  | nil => rfl
  | cons a l ih =>
    cases a with
    | mk k v =>
      by_cases hkp : k = p
      · subst hkp
        rw [List.filter_cons_of_neg (by simp)]
        rw [ih]
        simp [List.lookup, beq_false_of_ne h]
      · rw [List.filter_cons_of_pos (by simp [hkp])]
        by_cases hqk : q = k
        · subst hqk
          simp [List.lookup]
        · simp [List.lookup, beq_false_of_ne hqk, ih]

theorem cacheOk_none (P : Frame → Prop) : CacheOk P none := by
  intro p f hf
  simp [entryAt] at hf

theorem cacheOk_ensure (P : Frame → Prop) (st : CacheState) (h : CacheOk P st) :
    CacheOk P (ensureCacheDir st) := h

theorem cacheOk_save (P : Frame → Prop) (st : CacheState) (p : String) (f : Frame)
    (hP : P f) (h : CacheOk P st) : CacheOk P (saveToCache p f st) := by
  intro q g hg
  unfold saveToCache at hg
  by_cases hq : q = p
  · subst hq
    simp [entryAt, List.lookup] at hg
    exact hg ▸ hP
  · refine h q g ?_
    unfold entryAt at hg ⊢
    rw [Option.getD_some] at hg
    simp only [List.lookup, beq_false_of_ne hq] at hg
    rwa [lookup_filter_ne q p _ hq] at hg

theorem fetchMonthlyCandles_inv (P : Frame → Prop)
    (hsource : ∀ (csv : CsvSource) (s : String) (tf : Timeframe) (m : Nat),
      P (fetchDataFromSource csv s tf m))
    (csv : CsvSource) (s : String) (tf : Timeframe) (m : Nat) (uc : Bool)
    (st : CacheState) (h : CacheOk P st) :
    P (fetchMonthlyCandles csv s tf m uc st).1
    ∧ CacheOk P (fetchMonthlyCandles csv s tf m uc st).2 := by
  unfold fetchMonthlyCandles
  by_cases hcond :
      (uc && (entryAt (ensureCacheDir st) (cachePath s tf.name m)).isSome) = true
  · rw [if_pos hcond]
    have hsome : (entryAt (ensureCacheDir st) (cachePath s tf.name m)).isSome = true :=
      (Bool.and_eq_true _ _).mp hcond |>.2
    obtain ⟨f, hf⟩ := Option.isSome_iff_exists.mp hsome
    constructor
    · show P (loadFromCache (cachePath s tf.name m) (ensureCacheDir st))
      unfold loadFromCache
      rw [hf]
      exact cacheOk_ensure P st h _ f hf
    · exact cacheOk_ensure P st h
  · rw [if_neg hcond]
    cases uc with
    | false =>
      exact ⟨hsource csv s tf m, cacheOk_ensure P st h⟩
    | true =>
      refine ⟨hsource csv s tf m, ?_⟩
      exact cacheOk_save P (ensureCacheDir st) _ _ (hsource csv s tf m) (cacheOk_ensure P st h)

theorem mapAccum_length {α β σ : Type} (f : α → σ → β × σ) (l : List α) (st : σ) :
    ((mapAccum f l st).1).length = l.length := by
  induction l generalizing st with
  | nil => rfl
  | cons a l ih => simp [mapAccum, ih]

theorem mapAccum_append {α β σ : Type} (f : α → σ → β × σ) (l₁ l₂ : List α) (st : σ) :
    mapAccum f (l₁ ++ l₂) st
      = ((mapAccum f l₁ st).1 ++ (mapAccum f l₂ (mapAccum f l₁ st).2).1,
          (mapAccum f l₂ (mapAccum f l₁ st).2).2) := by
  induction l₁ generalizing st with
  | nil => rfl
  | cons a l ih => simp [mapAccum, ih]

theorem runMonths_eq_mapAccum (csv : CsvSource) (tf : Timeframe) (uc : Bool)
    (s : String) (ms : List Nat) (st : CacheState) :
    runMonths csv tf uc s ms st
      = mapAccum (fun p st2 => fetchMonthlyCandles csv p.1 tf p.2 uc st2)
          (ms.map (fun m => (s, m))) st := by
  induction ms generalizing st with
  | nil => rfl
  | cons m ms ih => simp [runMonths, List.map_cons, mapAccum, ih]

theorem runSymbols_eq_mapAccum (csv : CsvSource) (tf : Timeframe) (uc : Bool)
    (ms : List Nat) (ss : List String) (st : CacheState) :
    runSymbols csv tf uc ms ss st
      = mapAccum (fun p st2 => fetchMonthlyCandles csv p.1 tf p.2 uc st2)
          (ss.flatMap (fun s => ms.map (fun m => (s, m)))) st := by
  induction ss generalizing st with
  | nil => rfl
  | cons s ss ih =>
    rw [List.flatMap_cons, mapAccum_append]
    simp only [runSymbols]
    rw [runMonths_eq_mapAccum, ih]

theorem mapAccum_fetch_inv (P : Frame → Prop)
    (hsource : ∀ (csv : CsvSource) (s : String) (tf : Timeframe) (m : Nat),
      P (fetchDataFromSource csv s tf m))
    (csv : CsvSource) (tf : Timeframe) (uc : Bool) (l : List (String × Nat))
    (st : CacheState) (h : CacheOk P st) :
    (∀ b ∈ (mapAccum (fun p st2 => fetchMonthlyCandles csv p.1 tf p.2 uc st2) l st).1, P b)
    ∧ CacheOk P (mapAccum (fun p st2 => fetchMonthlyCandles csv p.1 tf p.2 uc st2) l st).2 := by
  induction l generalizing st with
  | nil => exact ⟨by intro b hb; simp [mapAccum] at hb, h⟩
  | cons p l ih =>
    have hstep := fetchMonthlyCandles_inv P hsource csv p.1 tf p.2 uc st h
    have hrest := ih (fetchMonthlyCandles csv p.1 tf p.2 uc st).2 hstep.2
    constructor
    · intro b hb
      simp only [mapAccum, List.mem_cons] at hb
      rcases hb with hb | hb
      · exact hb ▸ hstep.1
      · exact hrest.1 b hb
    · simpa [mapAccum] using hrest.2

theorem plConcat_ok (fs : List Frame) (cols : List String) (hne : fs ≠ [])
    (hall : ∀ f ∈ fs, f.columns = cols) :
    plConcat fs = Except.ok ⟨cols, fs.flatMap Frame.rows⟩ := by
  cases fs with
  | nil => cases hne rfl
  | cons f fs =>
    have hf : f.columns = cols := hall f (by simp)
    have hcond : fs.all (fun g => g.columns == f.columns) = true := by
      rw [List.all_eq_true]
      intro g hg
      exact beq_iff_eq.mpr (by rw [hall g (by simp [hg]), hf])
    show (if (fs.all fun g => g.columns == f.columns) = true then
        Except.ok (Frame.mk f.columns ((f :: fs).flatMap Frame.rows))
      else Except.error "vertical concat schema mismatch")
      = Except.ok (Frame.mk cols ((f :: fs).flatMap Frame.rows))
    rw [if_pos hcond, hf]

/-! ## Claims C4 and C9: the range fetch loop -/

/-- C4: for a non-empty symbols list and a non-empty month range, the month
sequence is exactly the ascending inclusive range of months; the fetch loop is
the sequential state-threaded map of the monthly fetch over the cross-product
symbols × months (outer loop over symbols in the order given, inner loop over
ascending months — one invocation per pair); and the result concatenates the
per-key tables in exactly that iteration order. -/
theorem claim4_range_determinism (csv : CsvSource) (syms : List String) (tf : Timeframe)
    (start e : Nat) (uc : Bool) (st : CacheState)
    (hs : syms ≠ []) (hse : start ≤ e) (hst : CacheOk FrameCols st) :
    (∀ m : Nat, m ∈ getMonths start (some e) ↔ start ≤ m ∧ m ≤ e)
    ∧ (getMonths start (some e)).Pairwise (fun a b => a < b)
    ∧ runSymbols csv tf uc (getMonths start (some e)) syms st
        = mapAccum (fun p st2 => fetchMonthlyCandles csv p.1 tf p.2 uc st2)
            (syms.flatMap (fun s => (getMonths start (some e)).map (fun m => (s, m)))) st
    ∧ fetch csv (Symbols.many syms) tf start (some e) uc st
        = (Except.ok (Frame.mk SYMCOLS
            (((mapAccum (fun p st2 => fetchMonthlyCandles csv p.1 tf p.2 uc st2)
                (syms.flatMap (fun s => (getMonths start (some e)).map (fun m => (s, m))))
                st).1).flatMap Frame.rows)),
          (mapAccum (fun p st2 => fetchMonthlyCandles csv p.1 tf p.2 uc st2)
            (syms.flatMap (fun s => (getMonths start (some e)).map (fun m => (s, m))))
            st).2) := by
  have hmem : ∀ m : Nat, m ∈ getMonths start (some e) ↔ start ≤ m ∧ m ≤ e := by
    intro m
    exact mem_getMonthsFrom start e m
  refine ⟨hmem, pairwise_getMonthsFrom start e,
    runSymbols_eq_mapAccum csv tf uc (getMonths start (some e)) syms st, ?_⟩
  have hmonne : getMonths start (some e) ≠ [] := by
    intro hnil
    have hmm := (hmem start).mpr ⟨le_refl start, hse⟩
    rw [hnil] at hmm
    exact (List.not_mem_nil start) hmm
  have hkeysne :
      syms.flatMap (fun s => (getMonths start (some e)).map (fun m => (s, m))) ≠ [] := by
    cases syms with
    | nil => cases hs rfl
    | cons s0 ss =>
      rw [List.flatMap_cons]
      intro hnil
      have h1 := (List.append_eq_nil.mp hnil).1
      exact hmonne (List.map_eq_nil_iff.mp h1)
  have hinv := mapAccum_fetch_inv FrameCols
    (fun a b c d => fetchDataFromSource_cols a b c d) csv tf uc
    (syms.flatMap (fun s => (getMonths start (some e)).map (fun m => (s, m)))) st hst
  have hcand_ne : (mapAccum (fun p st2 => fetchMonthlyCandles csv p.1 tf p.2 uc st2)
      (syms.flatMap (fun s => (getMonths start (some e)).map (fun m => (s, m)))) st).1
      ≠ [] := by
    intro hnil
    have hlen := mapAccum_length (fun p st2 => fetchMonthlyCandles csv p.1 tf p.2 uc st2)
      (syms.flatMap (fun s => (getMonths start (some e)).map (fun m => (s, m)))) st
    rw [hnil] at hlen
    exact hkeysne (List.length_eq_zero.mp hlen.symm)
  show (plConcat (runSymbols csv tf uc (getMonths start (some e)) syms st).1,
      (runSymbols csv tf uc (getMonths start (some e)) syms st).2) = _
  rw [runSymbols_eq_mapAccum csv tf uc (getMonths start (some e)) syms st]
  rw [plConcat_ok _ SYMCOLS hcand_ne (fun f hf => (hinv.1 f hf))]

/-- Witness for C4: two symbols over the two-month range 2023-01 .. 2023-02
starting from an absent cache directory. -/
theorem claim4_witness :
    (["ETHUSDT", "BTCUSDT"] ≠ ([] : List String))
    ∧ mkMonth 2023 1 ≤ mkMonth 2023 2
    ∧ CacheOk FrameCols none
    ∧ ((∀ m : Nat, m ∈ getMonths (mkMonth 2023 1) (some (mkMonth 2023 2))
          ↔ mkMonth 2023 1 ≤ m ∧ m ≤ mkMonth 2023 2)
      ∧ (getMonths (mkMonth 2023 1) (some (mkMonth 2023 2))).Pairwise (fun a b => a < b)
      ∧ runSymbols (fun _ _ _ => []) (Timeframe.mk "1h" 3600000) true
          (getMonths (mkMonth 2023 1) (some (mkMonth 2023 2))) ["ETHUSDT", "BTCUSDT"] none
          = mapAccum (fun p st2 => fetchMonthlyCandles (fun _ _ _ => []) p.1
                (Timeframe.mk "1h" 3600000) p.2 true st2)
              (["ETHUSDT", "BTCUSDT"].flatMap (fun s =>
                (getMonths (mkMonth 2023 1) (some (mkMonth 2023 2))).map (fun m => (s, m))))
              none
      ∧ fetch (fun _ _ _ => []) (Symbols.many ["ETHUSDT", "BTCUSDT"])
          (Timeframe.mk "1h" 3600000) (mkMonth 2023 1) (some (mkMonth 2023 2)) true none
          = (Except.ok (Frame.mk SYMCOLS
              (((mapAccum (fun p st2 => fetchMonthlyCandles (fun _ _ _ => []) p.1
                    (Timeframe.mk "1h" 3600000) p.2 true st2)
                  (["ETHUSDT", "BTCUSDT"].flatMap (fun s =>
                    (getMonths (mkMonth 2023 1) (some (mkMonth 2023 2))).map (fun m => (s, m))))
                  none).1).flatMap Frame.rows)),
            (mapAccum (fun p st2 => fetchMonthlyCandles (fun _ _ _ => []) p.1
                (Timeframe.mk "1h" 3600000) p.2 true st2)
              (["ETHUSDT", "BTCUSDT"].flatMap (fun s =>
                (getMonths (mkMonth 2023 1) (some (mkMonth 2023 2))).map (fun m => (s, m))))
              none).2)) :=
  ⟨by decide, by decide, cacheOk_none FrameCols,
    claim4_range_determinism (fun _ _ _ => []) ["ETHUSDT", "BTCUSDT"]
      (Timeframe.mk "1h" 3600000) (mkMonth 2023 1) (mkMonth 2023 2) true none
      (by decide) (by decide) (cacheOk_none FrameCols)⟩

/-- C9: starting from a cache whose entries are all normalized per-month
frames, every monthly fetch returns a frame with column order
`["symbol", "timestamp", "open", "high", "low", "close", "volume"]` and a
constant symbol column, and every successful range fetch — also for a single
requested symbol — returns a frame with that column order whose rows are the
concatenation of per-month-key blocks, each block having a constant symbol
value. -/
theorem claim9_symbol_column (csv : CsvSource) (symbols : Symbols) (tf : Timeframe)
    (start : Nat) (stop : Option Nat) (uc : Bool) (st : CacheState)
    (hst : CacheOk FrameOk st) :
    (∀ (s : String) (m : Nat) (uc2 : Bool), FrameOk (fetchMonthlyCandles csv s tf m uc2 st).1)
    ∧ (∀ (f : Frame) (st2 : CacheState),
        fetch csv symbols tf start stop uc st = (Except.ok f, st2) →
          f.columns = SYMCOLS
          ∧ ∃ blocks : List Frame, f.rows = blocks.flatMap Frame.rows
              ∧ ∀ b ∈ blocks, b.columns = SYMCOLS
                  ∧ ∃ c, ∀ r ∈ b.rows, List.lookup "symbol" r = some (Val.str c)) := by
  constructor
  · intro s m uc2
    exact (fetchMonthlyCandles_inv FrameOk (fun a b c d => fetchDataFromSource_ok a b c d)
      csv s tf m uc2 st hst).1
  · intro f st2 hf
    have heq : fetch csv symbols tf start stop uc st
        = (plConcat (runSymbols csv tf uc (getMonths start stop) symbols.toList st).1,
            (runSymbols csv tf uc (getMonths start stop) symbols.toList st).2) := rfl
    rw [heq, runSymbols_eq_mapAccum] at hf
    have hinv := mapAccum_fetch_inv FrameOk (fun a b c d => fetchDataFromSource_ok a b c d)
      csv tf uc
      (symbols.toList.flatMap (fun s => (getMonths start stop).map (fun m => (s, m)))) st hst
    rw [Prod.mk.injEq] at hf
    obtain ⟨h1, h2⟩ := hf
    cases hcs : (mapAccum (fun p st2 => fetchMonthlyCandles csv p.1 tf p.2 uc st2)
        (symbols.toList.flatMap (fun s => (getMonths start stop).map (fun m => (s, m))))
        st).1 with
    | nil =>
      rw [hcs] at h1
      simp [plConcat] at h1
    | cons g gs =>
      rw [hcs] at h1
      have hall : ∀ b ∈ g :: gs, b.columns = SYMCOLS := by
        intro b hb
        have hOk := hinv.1 b (by rw [hcs]; exact hb)
        exact hOk.1
      rw [plConcat_ok (g :: gs) SYMCOLS (by simp) hall] at h1
      have hfeq : Frame.mk SYMCOLS ((g :: gs).flatMap Frame.rows) = f := by
        injection h1
      subst hfeq
      refine ⟨rfl, g :: gs, rfl, ?_⟩
      intro b hb
      have hOk := hinv.1 b (by rw [hcs]; exact hb)
      exact ⟨hOk.1, hOk.2⟩

/-- Witness for C9: a single requested symbol, single month, empty cache
directory. -/
theorem claim9_witness :
    CacheOk FrameOk none
    ∧ ((∀ (s : String) (m : Nat) (uc2 : Bool),
          FrameOk (fetchMonthlyCandles (fun _ _ _ => []) s (Timeframe.mk "1h" 3600000)
            m uc2 none).1)
      ∧ (∀ (f : Frame) (st2 : CacheState),
          fetch (fun _ _ _ => []) (Symbols.one "BTCUSDT") (Timeframe.mk "1h" 3600000)
              (mkMonth 2023 1) none true none = (Except.ok f, st2) →
            f.columns = SYMCOLS
            ∧ ∃ blocks : List Frame, f.rows = blocks.flatMap Frame.rows
                ∧ ∀ b ∈ blocks, b.columns = SYMCOLS
                    ∧ ∃ c, ∀ r ∈ b.rows, List.lookup "symbol" r = some (Val.str c))) :=
  ⟨cacheOk_none FrameOk,
    claim9_symbol_column (fun _ _ _ => []) (Symbols.one "BTCUSDT")
      (Timeframe.mk "1h" 3600000) (mkMonth 2023 1) none true none (cacheOk_none FrameOk)⟩

end MonthlyCandles
